import Mathlib

/-
Verification of the caption-tool core (scripts/image_caption_gui.py).

Shallow embedding conventions:
* Python strings are `List Char` (`Str`); filesystem paths are lists of path
  components (`FPath`), so `pathlib`'s `/` is `++ [component]`, `.parent` is
  `dropLast` and `.name` is the last component.
* The on-disk state is a map `FPath → Option Str` over the files' text
  contents (image files carry irrelevant content).
* Stateful methods of `ImageView` become functions `ViewState → PyResult
  ViewState`; a raised Python exception is `(some e, s)` where `s` is the
  state as mutated up to the raise (Python objects keep the mutations made
  before an exception propagates).
* Machine integers: Python ints are `Int`/`Nat`; Python's `%` on a positive
  modulus agrees with Lean's `Int.emod`, which is what `%` denotes on `Int`.
* Rendering (window title, image decoding/display, dialogs) is an external
  collaborator per the spec; `update_ui` is modelled only in its
  caption-state effect: it reloads the caption buffer from the current
  entry's sidecar (or clears it when the collection is empty).
-/

set_option linter.unusedVariables false

namespace ImageCaptionGui

/-- Python strings, modelled as explicit character lists. -/
abbrev Str := List Char

/-- Filesystem paths as lists of components. -/
abbrev FPath := List Str

/-- Contents of the filesystem: text of each existing file. -/
abbrev FS := FPath → Option Str

/-- str.rfind restricted to single characters: index of the last occurrence. -/
def rfind (c : Char) : Str → Option Nat
  | [] => none
  | x :: xs =>
    match rfind c xs with
    | some j => some (j + 1)
    | none => if x = c then some 0 else none

/-- os.path.splitext (posixpath: sep is '/', no altsep): splits off the
extension at the last dot, provided the dot comes after the last separator
and the basename does not consist solely of leading dots.  The returned
extension includes the leading dot, exactly as in CPython. -/
def splitext (p : Str) : Str × Str :=
  match rfind '.' p with
  | none => (p, [])
  | some d =>
    let fi : Nat := match rfind '/' p with | none => 0 | some si => si + 1
    let sepOk : Bool := match rfind '/' p with | none => true | some si => decide (si < d)
    if sepOk then
      if ((p.drop fi).take (d - fi)).any (fun ch => decide (ch ≠ '.')) then
        (p.take d, p.drop d)
      else (p, [])
    else (p, [])

/-- pathlib.PurePath.stem: the final component without its suffix; the suffix
exists only when the last dot is at an index i with 0 < i < len(name) - 1. -/
def pstem (name : Str) : Str :=
  match rfind '.' name with
  | none => name
  | some i => if 0 < i ∧ i < name.length - 1 then name.take i else name

/-- IMG_EXT from the source: the accepted extensions, without any dot. -/
def IMG_EXT : List Str := ["jpg".toList, "jpeg".toList, "png".toList]

/-- The membership test open_folder applies to each walked filename:
os.path.splitext(f)[1] in IMG_EXT. -/
def img_filter (f : Str) : Bool := decide ((splitext f).2 ∈ IMG_EXT)

/-- CaptionedImage: base_path is the image's parent directory. -/
structure CaptionedImage where
  base_path : FPath
  path : FPath
deriving DecidableEq

/-- CaptionedImage.__init__(image_path). -/
def CaptionedImage.ofPath (image_path : FPath) : CaptionedImage :=
  { base_path := image_path.dropLast, path := image_path }

/-- pathlib .name: the final path component. -/
def pathName (p : FPath) : Str := p.getLastD []

/-- CaptionedImage.caption_path: base_path / (stem + '.txt'). -/
def caption_path (c : CaptionedImage) : FPath :=
  c.base_path ++ [pstem (pathName c.path) ++ ".txt".toList]

/-- Overwrite (or create) the file at p with text t. -/
def fsWrite (fs : FS) (p : FPath) (t : Str) : FS :=
  fun q => if q = p then some t else fs q

/-- Path.rename: the file at src moves to dst. -/
def fsRename (fs : FS) (src dst : FPath) : FS :=
  fun q => if q = dst then fs src else if q = src then none else fs q

/-- CaptionedImage.read_caption: sidecar contents if the file exists, else
the empty string; a missing file is not an error. -/
def read_caption (fs : FS) (c : CaptionedImage) : Str :=
  match fs (caption_path c) with
  | some t => t
  | none => []

/-- CaptionedImage.write_caption: overwrite the sidecar with the given text. -/
def write_caption (fs : FS) (c : CaptionedImage) (t : Str) : FS :=
  fsWrite fs (caption_path c) t

/-- str.replace(c, ''): drop every occurrence of the character c. -/
def removeAll (c : Char) (l : Str) : Str := l.filter (fun x => decide (x ≠ c))

/-- The ASCII whitespace characters recognised by str.strip() (the further
Unicode whitespace characters are irrelevant to every claim and elided). -/
def isPySpace (c : Char) : Bool :=
  c == ' ' || c == '\t' || c == '\n' || c == '\r' || c == '\x0b' || c == '\x0c'

/-- str.strip(): drop leading and trailing whitespace. -/
def pyStrip (l : Str) : Str :=
  ((l.dropWhile isPySpace).reverse.dropWhile isPySpace).reverse

/-- The normalisation store_caption applies before writing:
txt.replace('\r', '').replace('\n', '').strip(). -/
def normalize (l : Str) : Str :=
  pyStrip (removeAll '\n' (removeAll '\r' l))

/-- Python's substring containment q in s. -/
def hasSubstr (q : Str) : Str → Bool
  | [] => q.isEmpty
  | c :: rest => q.isPrefixOf (c :: rest) || hasSubstr q rest

/-- The Python exceptions the embedded methods can raise. -/
inductive PyErr where
  | zeroDivisionError
  | indexError
  | valueError
  | attributeError
  | fileNotFoundError
deriving DecidableEq

/-- State of the ImageView: root folder, entry list, cursor, the text of the
caption editor (caption_field), the sticky search query, and the filesystem. -/
structure ViewState where
  base_path : FPath
  images : List CaptionedImage
  index : Nat
  buffer : Str
  search_text : Str
  fs : FS

/-- Result of a method call: the raised exception, if any, together with the
state as mutated up to the point the exception propagated. -/
abbrev PyResult := Option PyErr × ViewState

/-- Sequencing of statements: an exception aborts the remaining statements. -/
def pyBind (r : PyResult) (f : ViewState → PyResult) : PyResult :=
  match r with
  | (some e, s) => (some e, s)
  | (none, s) => f s

/-- ImageView.store_caption: normalise the editor text and write it to the
current entry's sidecar (IndexError when the cursor is out of range). -/
def store_caption (s : ViewState) : PyResult :=
  match s.images[s.index]? with
  | none => (some PyErr.indexError, s)
  | some img => (none, { s with fs := write_caption s.fs img (normalize s.buffer) })

/-- ImageView.set_index: self.index = index % len(self.images); Python raises
ZeroDivisionError on an empty list, and its floored % on the positive length
is Int.emod. -/
def set_index (i : Int) (s : ViewState) : PyResult :=
  if s.images.length = 0 then (some PyErr.zeroDivisionError, s)
  else (none, { s with index := (i % (s.images.length : Int)).toNat })

/-- ImageView.update_ui, restricted to its caption-state effect (see the
header comment): reload the buffer from the current entry's sidecar, or clear
it when the collection is empty. -/
def update_ui (s : ViewState) : PyResult :=
  if s.images.length = 0 then (none, { s with buffer := [] })
  else
    match s.images[s.index]? with
    | none => (some PyErr.indexError, s)
    | some img => (none, { s with buffer := read_caption s.fs img })

/-- ImageView.go_to_image: no-op on an empty collection; otherwise flush the
caption, move the cursor, refresh the UI — in that order. -/
def go_to_image (i : Int) (s : ViewState) : PyResult :=
  if s.images.length = 0 then (none, s)
  else pyBind (store_caption s) (fun s1 => pyBind (set_index i s1) update_ui)

/-- ImageView.next_image. -/
def next_image (s : ViewState) : PyResult := go_to_image ((s.index : Int) + 1) s

/-- ImageView.prev_image. -/
def prev_image (s : ViewState) : PyResult := go_to_image ((s.index : Int) - 1) s

/-- The ±10 / home / end jump bindings: view.go_to_image(view.index + off). -/
def jump_images (off : Int) (s : ViewState) : PyResult :=
  go_to_image ((s.index : Int) + off) s

/-- ImageView.shuffle_images: flushes the caption, then crashes — the module
does `from random import random`, so `random` names a function and
`random.shuffle(self.images)` raises AttributeError before any reordering. -/
def shuffle_images (s : ViewState) : PyResult :=
  pyBind (store_caption s) (fun s1 => (some PyErr.attributeError, s1))

/-- ImageView.delete_image: move the image (and its sidecar, if present) into
base_path / '_deleted', drop the entry, re-clamp the cursor, refresh the UI.
Directory creation (mkdir) has no bearing on any file content and is not
modelled; a rename whose source is missing raises FileNotFoundError. -/
def delete_image (s : ViewState) : PyResult :=
  if s.images.length = 0 then (none, s)
  else
    match s.images[s.index]? with
    | none => (some PyErr.indexError, s)
    | some img =>
      match s.fs img.path with
      | none => (some PyErr.fileNotFoundError, s)
      | some _ =>
        let trash_path : FPath := s.base_path ++ ["_deleted".toList]
        let fs1 := fsRename s.fs img.path (trash_path ++ [pathName img.path])
        let cp := caption_path img
        let fs2 := if (fs1 cp).isSome then fsRename fs1 cp (trash_path ++ [pathName cp]) else fs1
        let s1 := { s with fs := fs2, images := s.images.eraseIdx s.index }
        pyBind (set_index (s.index : Int) s1) update_ui

/-- The pure file-relocation part of delete_image (the same rename chain,
named so theorems can state that the deleted entry's files move and nothing
else — in particular not the caption buffer — reaches the disk). -/
def relocated_fs (s : ViewState) (img : CaptionedImage) : FS :=
  let trash_path : FPath := s.base_path ++ ["_deleted".toList]
  let fs1 := fsRename s.fs img.path (trash_path ++ [pathName img.path])
  let cp := caption_path img
  if (fs1 cp).isSome then fsRename fs1 cp (trash_path ++ [pathName cp]) else fs1

/-- str(path).lower() for the sort key; Char.toLower agrees with str.lower on
the ASCII range. -/
def strLower (l : Str) : Str := l.map Char.toLower

/-- str(Path): components joined by '/'. -/
def pathStr (p : FPath) : Str := List.intercalate "/".toList p

/-- CaptionedImage.__lt__: case-insensitive comparison of the path strings
(Python string < is lexicographic by code point, as is List.lt on Char). -/
def imageLt (a b : CaptionedImage) : Bool :=
  decide (strLower (pathStr a.path) < strLower (pathStr b.path))

/-- list.sort(): a stable ascending sort whose "a stays before b" relation is
¬(b < a) in terms of __lt__. -/
def sortImages (l : List CaptionedImage) : List CaptionedImage :=
  l.mergeSort (fun a b => !(imageLt b a))

/-- ImageView.open_folder.  The folder-picker dialog and os.walk are external:
the chosen directory and the walk result (directory, filenames) are
parameters; an empty dir is the cancelled dialog.  For each filename passing
img_filter one CaptionedImage is built from os.path.join(directory, filename);
the list replaces self.images, is sorted, and update_ui runs.  The cursor is
not touched. -/
def open_folder (walk : List (FPath × List Str)) (dir : FPath) (s : ViewState) : PyResult :=
  if dir = [] then (none, s)
  else
    update_ui
      { s with
        base_path := dir
        images := sortImages
          ((walk.map (fun de =>
            (de.2.filter img_filter).map
              (fun f => CaptionedImage.ofPath (de.1 ++ [f])))).flatten) }

/-- ImageView.load_all_captions: every caption, read fresh from disk. -/
def load_all_captions (s : ViewState) : List Str :=
  s.images.map (read_caption s.fs)

/-- The search predicate of find_next_internal's generator expression:
self.search_text in captions[i].  Candidate indices are in range in every
call the program makes, so the out-of-range default [] is never consulted. -/
def matches_at (s : ViewState) (i : Nat) : Bool :=
  hasSubstr s.search_text ((load_all_captions s).getD i [])

/-- range(start, stop), reversed when asked. -/
def scan_range (start stop : Nat) (reverse : Bool) : List Nat :=
  if reverse then (List.range' start (stop - start)).reverse
  else List.range' start (stop - start)

/-- ImageView.find_next_internal with wrap=False: raises ValueError when
start >= stop; otherwise scans the candidate indices for the first caption
containing search_text (matches_at) and navigates there; returns unchanged
on no match.  The source's recursive self-call always passes wrap=False, so
that instance is embedded as this separate non-recursive function. -/
def find_next_nowrap (start stop : Nat) (reverse : Bool) (s : ViewState) : PyResult :=
  if start ≥ stop then (some PyErr.valueError, s)
  else
    match (scan_range start stop reverse).find? (matches_at s) with
    | some i => go_to_image (i : Int) s
    | none => (none, s)

/-- ImageView.find_next_internal: raises ValueError when start >= stop;
otherwise scans the candidate indices for the first caption containing
search_text (matches_at) and navigates there; on no match, a wrap=True call
retries once over the complementary range with wrap=False
(find_next_nowrap). -/
def find_next_internal (start stop : Nat) (reverse wrap : Bool) (s : ViewState) : PyResult :=
  if start ≥ stop then (some PyErr.valueError, s)
  else
    match (scan_range start stop reverse).find? (matches_at s) with
    | some i => go_to_image (i : Int) s
    | none =>
      match wrap with
      | true =>
        if reverse then find_next_nowrap stop s.images.length true s
        else find_next_nowrap 0 start false s
      | false => (none, s)

/-- ImageView.find_next: guarded on an empty collection; an empty query opens
the (external) find dialog, modelled as returning unchanged. -/
def find_next (s : ViewState) : PyResult :=
  if s.images.length = 0 then (none, s)
  else if s.search_text.length = 0 then (none, s)
  else find_next_internal ((s.index + 1) % s.images.length) s.images.length false true s

/-- ImageView.find_prev: a next-search with the indices reversed. -/
def find_prev (s : ViewState) : PyResult :=
  if s.images.length = 0 then (none, s)
  else if s.search_text.length = 0 then (none, s)
  else find_next_internal 0 ((s.index + s.images.length - 1) % s.images.length) true true s

/-- SpellcheckText.on_modify's delay constant (200 ms). -/
def delayMs : Nat := 200

/-- SpellcheckText.on_modify at time t: after_cancel on the pending callback
(if any) and re-schedule on_modified delayMs later; the state is the pending
fire time held in self.afterid. -/
def on_modify_step (t : Nat) (pending : Option Nat) : Option Nat :=
  some (t + delayMs)

/-- Discrete-time semantics of the tk event loop restricted to this widget's
timer: modification events arrive at the listed (nondecreasing) times, and a
pending after-callback runs as soon as its fire time is reached.  Returns the
times at which on_modified (the spell-check pass) actually runs. -/
def timerRuns : Option Nat → List Nat → List Nat
  | pending, [] => match pending with | some f => [f] | none => []
  | pending, t :: rest =>
    match pending with
    | some f =>
      if f ≤ t then f :: timerRuns (on_modify_step t none) rest
      else timerRuns (on_modify_step t (some f)) rest
    | none => timerRuns (on_modify_step t none) rest

/-- The collection invariant stated in the spec: a non-empty sequence has an
in-range cursor (the index is a Nat, so 0 ≤ index is automatic). -/
def cursor_ok (s : ViewState) : Prop := s.images ≠ [] → s.index < s.images.length

/-- The scan order claimed for find_next: cursor+1 .. length-1 in increasing
order, then wrapping over 0 .. cursor. -/
def claimed_scan (s : ViewState) : List Nat :=
  List.range' (s.index + 1) (s.images.length - 1 - s.index) ++ List.range' 0 (s.index + 1)

/-- Fixture: a folder "d". -/
def demoDir : FPath := ["d".toList]

/-- Fixture filesystem: three images with captions "red fox", "blue sky",
"red fox jumps". -/
def demoFs : FS := fun p =>
  if p = demoDir ++ ["a.txt".toList] then some ("red fox".toList)
  else if p = demoDir ++ ["b.txt".toList] then some ("blue sky".toList)
  else if p = demoDir ++ ["c.txt".toList] then some ("red fox jumps".toList)
  else if p = demoDir ++ ["a.jpg".toList] then some []
  else if p = demoDir ++ ["b.jpg".toList] then some []
  else if p = demoDir ++ ["c.jpg".toList] then some []
  else none

/-- Fixture: the search scenario of the spec (§8.7), cursor at 0, buffer in
sync with the current caption, query "red". -/
def c5state : ViewState :=
  { base_path := demoDir
  , images := [CaptionedImage.ofPath (demoDir ++ ["a.jpg".toList]),
               CaptionedImage.ofPath (demoDir ++ ["b.jpg".toList]),
               CaptionedImage.ofPath (demoDir ++ ["c.jpg".toList])]
  , index := 0
  , buffer := "red fox".toList
  , search_text := "red".toList
  , fs := demoFs }

/-- State after the first find_next("red"). -/
def c5state1 : ViewState := (find_next c5state).2

/-- State after the second find_next("red"). -/
def c5state2 : ViewState := (find_next c5state1).2

/-- State after the third find_next("red"). -/
def c5state3 : ViewState := (find_next c5state2).2

/-- The same state with the query switched to "zzz". -/
def c5stateZ : ViewState := { c5state3 with search_text := "zzz".toList }

/-- Fixture filesystem for the two-image search states: captions "a", "b". -/
def c6fs : FS := fun p =>
  if p = demoDir ++ ["a.txt".toList] then some ("a".toList)
  else if p = demoDir ++ ["b.txt".toList] then some ("b".toList)
  else none

/-- Fixture: two images, cursor at the last index, query "zzz" matching no
caption. -/
def c6state : ViewState :=
  { base_path := demoDir
  , images := [CaptionedImage.ofPath (demoDir ++ ["a.jpg".toList]),
               CaptionedImage.ofPath (demoDir ++ ["b.jpg".toList])]
  , index := 1
  , buffer := "b".toList
  , search_text := "zzz".toList
  , fs := c6fs }

/-- Fixture: same two images, cursor 1, query "a" (caption 0 matches). -/
def c7state : ViewState := { c6state with search_text := "a".toList }

/-- Fixture filesystem: one image "a.jpg" with caption "cap". -/
def c3fs : FS := fun p =>
  if p = demoDir ++ ["a.jpg".toList] then some []
  else if p = demoDir ++ ["a.txt".toList] then some ("cap".toList)
  else none

/-- Fixture: a collection holding exactly one image. -/
def c3state : ViewState :=
  { base_path := demoDir
  , images := [CaptionedImage.ofPath (demoDir ++ ["a.jpg".toList])]
  , index := 0
  , buffer := "cap".toList
  , search_text := []
  , fs := c3fs }

/-- Fixture: a state whose cursor is not 0, for the load counterexample. -/
def c2state : ViewState :=
  { base_path := []
  , images := []
  , index := 3
  , buffer := []
  , search_text := []
  , fs := fun _ => none }

/-- Fixture walk result: one directory holding image and non-image files. -/
def c4walk : List (FPath × List Str) :=
  [(demoDir, ["a.jpg".toList, "B.PNG".toList, "notes.txt".toList])]

/-- Fixture: the three-image state with unsaved buffer edits. -/
def c10state : ViewState := { c5state with buffer := "EDITED".toList, search_text := [] }

/-! ## Helper lemmas -/

lemma emod_toNat_lt (i : Int) (n : Nat) (h : 0 < n) : (i % (n : Int)).toNat < n := by
  have h0 : (n : Int) ≠ 0 := by exact_mod_cast h.ne'
  have h1 := Int.emod_nonneg i h0
  have h2 := Int.emod_lt_of_pos i (show (0 : Int) < n by exact_mod_cast h)
  omega

lemma store_caption_frame (s : ViewState) :
    ((store_caption s).2).images = s.images ∧ ((store_caption s).2).index = s.index ∧
    ((store_caption s).2).base_path = s.base_path ∧
    ((store_caption s).2).search_text = s.search_text := by
  unfold store_caption; split <;> simp

lemma set_index_frame (i : Int) (s : ViewState) :
    ((set_index i s).2).images = s.images ∧ ((set_index i s).2).fs = s.fs ∧
    ((set_index i s).2).buffer = s.buffer := by
  unfold set_index; split <;> simp

lemma update_ui_frame (s : ViewState) :
    ((update_ui s).2).images = s.images ∧ ((update_ui s).2).index = s.index ∧
    ((update_ui s).2).fs = s.fs := by
  unfold update_ui
  split
  · simp
  · split <;> simp

lemma set_index_of_ne_nil (i : Int) (s : ViewState) (h : s.images ≠ []) :
    set_index i s = (none, { s with index := (i % (s.images.length : Int)).toNat }) := by
  unfold set_index
  rw [if_neg (by simpa [List.length_eq_zero] using h)]

lemma getElem?_images (s : ViewState) (hidx : s.index < s.images.length) :
    s.images[s.index]? = some (s.images.get ⟨s.index, hidx⟩) := by
  rw [List.getElem?_eq_getElem hidx]
  simp

lemma store_caption_of_lt (s : ViewState) (hidx : s.index < s.images.length) :
    store_caption s =
      (none, { s with fs := write_caption s.fs (s.images.get ⟨s.index, hidx⟩)
                        (normalize s.buffer) }) := by
  unfold store_caption
  rw [getElem?_images s hidx]

/-! ## C8: caption round-trip and missing-file read -/

/-- C8: for every entry e and text t, writing normalize(t) and reading back
returns exactly normalize(t); read returns the sidecar contents verbatim when
the file exists and the empty string, without error, when it does not. -/
theorem caption_write_read_roundtrip (fs : FS) (e : CaptionedImage) (t : Str) :
    read_caption (write_caption fs e (normalize t)) e = normalize t ∧
    (fs (caption_path e) = none → read_caption fs e = []) ∧
    (∀ c, fs (caption_path e) = some c → read_caption fs e = c) := by
  refine ⟨?_, ?_, ?_⟩
  · simp [read_caption, write_caption, fsWrite]
  · intro h; simp [read_caption, h]
  · intro c h; simp [read_caption, h]

/-- Witness for C8 at a concrete entry, text and (empty / one-file)
filesystems. -/
theorem caption_write_read_roundtrip_witness :
    read_caption
        (write_caption (fun _ => none) (CaptionedImage.ofPath (demoDir ++ ["a.jpg".toList]))
          (normalize (" hi\r\n there ".toList)))
        (CaptionedImage.ofPath (demoDir ++ ["a.jpg".toList])) =
      normalize (" hi\r\n there ".toList) ∧
    read_caption (fun _ => none) (CaptionedImage.ofPath (demoDir ++ ["a.jpg".toList])) = [] ∧
    read_caption (fun _ => some ("x".toList))
        (CaptionedImage.ofPath (demoDir ++ ["a.jpg".toList])) = "x".toList :=
  ⟨(caption_write_read_roundtrip (fun _ => none)
      (CaptionedImage.ofPath (demoDir ++ ["a.jpg".toList])) (" hi\r\n there ".toList)).1,
   (caption_write_read_roundtrip (fun _ => none)
      (CaptionedImage.ofPath (demoDir ++ ["a.jpg".toList])) []).2.1 rfl,
   (caption_write_read_roundtrip (fun _ => some ("x".toList))
      (CaptionedImage.ofPath (demoDir ++ ["a.jpg".toList])) []).2.2 ("x".toList) rfl⟩

/-! ## C1: go_to_image flushes the caption before moving the cursor -/

/-- C1: on a non-empty collection with an in-range cursor, go_to_image factors
as the flush (store_caption) followed by the cursor update; the flush write is
already durable in the intermediate state, the call raises nothing, and in the
final state — hence for any observer of the new cursor value — the left
entry's sidecar holds the normalized buffer text while the cursor equals
i mod length. -/
theorem go_to_image_flushes_before_moving (s : ViewState) (i : Int)
    (h : s.images ≠ []) (hidx : s.index < s.images.length) :
    go_to_image i s = pyBind (set_index i ((store_caption s).2)) update_ui ∧
    ((store_caption s).2).fs (caption_path (s.images.get ⟨s.index, hidx⟩)) =
      some (normalize s.buffer) ∧
    (go_to_image i s).1 = none ∧
    ((go_to_image i s).2).fs (caption_path (s.images.get ⟨s.index, hidx⟩)) =
      some (normalize s.buffer) ∧
    ((go_to_image i s).2).index = (i % (s.images.length : Int)).toNat := by
  have hlen : ¬ s.images.length = 0 := by simpa [List.length_eq_zero] using h
  have hlen0 : 0 < s.images.length := Nat.pos_of_ne_zero hlen
  have hstore := store_caption_of_lt s hidx
  set img := s.images.get ⟨s.index, hidx⟩ with himg
  set smid : ViewState :=
    { s with fs := write_caption s.fs img (normalize s.buffer) } with hsmid
  have hmidfs : smid.fs (caption_path img) = some (normalize s.buffer) := by
    simp [hsmid, write_caption, fsWrite]
  have hm : (i % (s.images.length : Int)).toNat < s.images.length :=
    emod_toNat_lt i _ hlen0
  have hset : set_index i smid =
      (none, { smid with index := (i % (s.images.length : Int)).toNat }) := by
    rw [set_index_of_ne_nil i smid (by simpa [hsmid] using h)]
  set sfin : ViewState :=
    { smid with index := (i % (s.images.length : Int)).toNat } with hsfin
  have hfinget : sfin.images[sfin.index]? = some (sfin.images.get ⟨sfin.index, by simpa [hsfin, hsmid] using hm⟩) :=
    getElem?_images sfin (by simpa [hsfin, hsmid] using hm)
  have hui : update_ui sfin =
      (none, { sfin with
        buffer := read_caption sfin.fs (sfin.images.get ⟨sfin.index, by simpa [hsfin, hsmid] using hm⟩) }) := by
    unfold update_ui
    rw [if_neg (by simpa [hsfin, hsmid] using hlen), hfinget]
  have hgo : go_to_image i s = pyBind (set_index i smid) update_ui := by
    unfold go_to_image
    rw [if_neg hlen, hstore]
    simp [pyBind]
  refine ⟨by rw [hgo, hstore], by rw [hstore]; exact hmidfs, ?_, ?_, ?_⟩
  · rw [hgo, hset]; simp [pyBind, hui]
  · rw [hgo, hset]; simp [pyBind, hui]
    simpa [hsfin] using hmidfs
  · rw [hgo, hset]; simp [pyBind, hui, hsfin]

/-- Witness for C1: navigating away from an edited entry writes the edit. -/
theorem go_to_image_flushes_before_moving_witness :
    (go_to_image 1 c10state).1 = none ∧
    ((go_to_image 1 c10state).2).fs
        (caption_path (c10state.images.get ⟨c10state.index, by decide⟩)) =
      some (normalize c10state.buffer) ∧
    ((go_to_image 1 c10state).2).index = ((1 : Int) % (c10state.images.length : Int)).toNat := by
  have h := go_to_image_flushes_before_moving c10state 1 (by decide) (by decide)
  exact ⟨h.2.2.1, h.2.2.2.1, h.2.2.2.2⟩

/-! ## C9: debounced spell checking -/

lemma timerRuns_pending (rest : List Nat) :
    ∀ t : Nat, List.Chain' (fun a b => a ≤ b ∧ b < a + delayMs) (t :: rest) →
      timerRuns (some (t + delayMs)) rest = [(t :: rest).getLast (by simp) + delayMs] := by
  induction rest with
  | nil =>
    intro t _
    simp [timerRuns]
  | cons b r ih =>
    intro t hchain
    have hb : t ≤ b ∧ b < t + delayMs := (List.chain'_cons.mp hchain).1
    have hchain' : List.Chain' (fun a b => a ≤ b ∧ b < a + delayMs) (b :: r) :=
      (List.chain'_cons.mp hchain).2
    have hnot : ¬ (t + delayMs ≤ b) := by omega
    calc timerRuns (some (t + delayMs)) (b :: r)
        = timerRuns (some (b + delayMs)) r := by
          simp [timerRuns, hnot, on_modify_step]
      _ = [(b :: r).getLast (by simp) + delayMs] := ih b hchain'
      _ = [(t :: b :: r).getLast (by simp) + delayMs] := by
          rw [List.getLast_cons (by simp : b :: r ≠ [])]

/-- C9: every modification event cancels the pending timer and re-schedules
the check a fixed delayMs (200 ms) later, so any non-empty burst of events
whose consecutive gaps stay below the delay produces exactly one spell-check
run, fired delayMs after the last event. -/
theorem debounce_single_check (ts : List Nat) (h1 : ts ≠ [])
    (h2 : List.Chain' (fun a b => a ≤ b ∧ b < a + delayMs) ts) :
    timerRuns none ts = [ts.getLast h1 + delayMs] ∧
    (timerRuns none ts).length = 1 ∧
    (∀ t pending, on_modify_step t pending = some (t + delayMs)) := by
  obtain ⟨t, rest, rfl⟩ := List.exists_cons_of_ne_nil h1
  have hrun : timerRuns none (t :: rest) = timerRuns (some (t + delayMs)) rest := by
    simp [timerRuns, on_modify_step]
  have hmain := timerRuns_pending rest t h2
  refine ⟨?_, ?_, fun _ _ => rfl⟩
  · rw [hrun]; exact hmain
  · rw [hrun, hmain]; rfl

/-- Witness for C9: three events at 0, 100 and 250 ms (each gap < 200 ms)
yield a single check at 450 ms. -/
theorem debounce_single_check_witness :
    timerRuns none [0, 100, 250] = [450] := by
  have h := (debounce_single_check [0, 100, 250] (by decide)
    (by norm_num [List.chain'_cons, delayMs])).1
  exact h.trans (by decide)

/-! ## C4 / C2: the extension filter never accepts a file -/

lemma rfind_drop (c : Char) (l : Str) :
    ∀ j, rfind c l = some j → ∃ t, l.drop j = c :: t := by
  induction l with
  | nil => intro j h; simp [rfind] at h
  | cons x xs ih =>
    intro j h
    unfold rfind at h
    cases hx : rfind c xs with
    | some j' =>
      rw [hx] at h
      obtain rfl : j = j' + 1 := by simpa using h.symm
      simpa using ih j' hx
    | none =>
      rw [hx] at h
      by_cases hxc : x = c
      · rw [if_pos hxc] at h
        obtain rfl : j = 0 := by simpa using h.symm
        exact ⟨xs, by simp [hxc]⟩
      · rw [if_neg hxc] at h
        exact absurd h (by simp)

lemma splitext_snd_shape (p : Str) :
    (splitext p).2 = [] ∨ ∃ t, (splitext p).2 = '.' :: t := by
  rcases hd : rfind '.' p with _ | d
  · left
    simp [splitext, hd]
  · simp only [splitext, hd]
    split
    · split
      · right
        exact rfind_drop '.' p d hd
      · left; rfl
    · left; rfl

lemma img_filter_false (f : Str) : img_filter f = false := by
  unfold img_filter
  apply decide_eq_false
  intro hmem
  rcases splitext_snd_shape f with hnil | ⟨t, hcons⟩
  · rw [hnil] at hmem
    simp only [IMG_EXT, List.mem_cons, List.not_mem_nil, or_false] at hmem
    rcases hmem with h | h | h <;> exact absurd (congrArg List.head? h) (by decide)
  · rw [hcons] at hmem
    simp only [IMG_EXT, List.mem_cons, List.not_mem_nil, or_false] at hmem
    rcases hmem with h | h | h <;>
      · have hh : ('.' :: t).head? = some '.' := rfl
        rw [h] at hh
        exact absurd hh (by decide)

lemma filter_img_nil (l : List Str) : l.filter img_filter = [] := by
  induction l with
  | nil => rfl
  | cons a l ih => simp [List.filter, img_filter_false, ih]

lemma open_folder_images_nil (walk : List (FPath × List Str)) :
    (walk.map (fun de =>
      (de.2.filter img_filter).map
        (fun f => CaptionedImage.ofPath (de.1 ++ [f])))).flatten = [] := by
  induction walk with
  | nil => rfl
  | cons d w ih => simp [filter_img_nil, ih]

lemma open_folder_closed (walk : List (FPath × List Str)) (dir : FPath) (s : ViewState)
    (hdir : dir ≠ []) :
    open_folder walk dir s =
      (none, { s with base_path := dir, images := [], buffer := [] }) := by
  unfold open_folder
  rw [if_neg hdir, open_folder_images_nil]
  simp [sortImages, List.mergeSort_nil, update_ui]

/-- C4 (the code at the claim's input): the extension comparison uses
os.path.splitext, whose result keeps the leading dot, against the dot-free
IMG_EXT, so the claimed entry for "a.jpg" (and for "B.PNG") is never
constructed — the scan of any walked folder loads an empty collection. -/
theorem open_folder_loads_nothing :
    img_filter ("a.jpg".toList) = false ∧
    (splitext ("a.jpg".toList)).2 = ".jpg".toList ∧
    (open_folder c4walk demoDir c2state).2.images = [] := by
  refine ⟨img_filter_false _, by decide, ?_⟩
  rw [open_folder_closed c4walk demoDir c2state (by decide)]

/-! ## C2: cursor invariant; load does not reset the cursor -/

/-- Counterexample to C2 as stated: load(directory) does not reset the cursor
to 0 — from a state with cursor 3 it leaves the cursor at 3. -/
theorem open_folder_keeps_stale_cursor :
    (open_folder c4walk demoDir c2state).2.index = 3 ∧
    (open_folder c4walk demoDir c2state).2.index ≠ 0 := by
  rw [open_folder_closed c4walk demoDir c2state (by decide)]
  exact ⟨rfl, by decide⟩

lemma cursor_ok_of_eq (s s' : ViewState) (himg : s'.images = s.images)
    (hidx : s'.index = s.index) (h : cursor_ok s) : cursor_ok s' := by
  intro hne
  rw [himg, hidx]
  exact h (by rwa [himg] at hne)

lemma store_caption_cursor_ok (s : ViewState) (h : cursor_ok s) :
    cursor_ok (store_caption s).2 :=
  cursor_ok_of_eq s _ (store_caption_frame s).1 (store_caption_frame s).2.1 h

lemma set_index_cursor_ok (i : Int) (s : ViewState) :
    cursor_ok (set_index i s).2 := by
  unfold set_index
  split
  · intro hne
    exact absurd (List.length_eq_zero.mp (by assumption)) hne
  · intro _
    simpa using emod_toNat_lt i s.images.length (Nat.pos_of_ne_zero (by assumption))

lemma update_ui_cursor_ok (s : ViewState) (h : cursor_ok s) :
    cursor_ok (update_ui s).2 :=
  cursor_ok_of_eq s _ (update_ui_frame s).1 (update_ui_frame s).2.1 h

lemma pyBind_cursor_ok (r : PyResult) (f : ViewState → PyResult)
    (hr : cursor_ok r.2) (hf : ∀ u : ViewState, cursor_ok u → cursor_ok (f u).2) :
    cursor_ok (pyBind r f).2 := by
  unfold pyBind
  cases r with
  | mk e1 s1 =>
    cases e1 with
    | some e => exact hr
    | none => exact hf s1 hr

lemma go_to_image_cursor_ok (i : Int) (s : ViewState) (h : cursor_ok s) :
    cursor_ok (go_to_image i s).2 := by
  unfold go_to_image
  split
  · exact h
  · exact pyBind_cursor_ok _ _ (store_caption_cursor_ok s h)
      (fun u hu => pyBind_cursor_ok _ _ (set_index_cursor_ok i u) update_ui_cursor_ok)

lemma delete_image_cursor_ok (s : ViewState) (h : cursor_ok s) :
    cursor_ok (delete_image s).2 := by
  unfold delete_image
  split
  · exact h
  · split
    · exact h
    · split
      · exact h
      · exact pyBind_cursor_ok _ _ (set_index_cursor_ok _ _) update_ui_cursor_ok

lemma shuffle_images_cursor_ok (s : ViewState) (h : cursor_ok s) :
    cursor_ok (shuffle_images s).2 := by
  unfold shuffle_images
  exact pyBind_cursor_ok _ _ (store_caption_cursor_ok s h) (fun u hu => hu)

/-- C2 (amended): after every public collection operation the invariant
"non-empty sequence implies 0 ≤ index < length" still holds (also when the
operation raises partway, for the state as mutated so far); load(directory)
replaces any prior collection but leaves the cursor value unchanged rather
than resetting it to 0 (and, as coded, its extension filter matches no file,
so the post-load sequence is empty and the invariant holds vacuously). -/
theorem collection_ops_preserve_cursor_ok (s : ViewState) (h : cursor_ok s) :
    (∀ walk dir, cursor_ok (open_folder walk dir s).2 ∧
      (open_folder walk dir s).2.index = s.index) ∧
    (∀ i, cursor_ok (set_index i s).2) ∧
    (∀ i, cursor_ok (go_to_image i s).2) ∧
    cursor_ok (next_image s).2 ∧
    cursor_ok (prev_image s).2 ∧
    (∀ off, cursor_ok (jump_images off s).2) ∧
    cursor_ok (delete_image s).2 ∧
    cursor_ok (shuffle_images s).2 := by
  refine ⟨?_, fun i => set_index_cursor_ok i s,
    fun i => go_to_image_cursor_ok i s h,
    go_to_image_cursor_ok _ s h,
    go_to_image_cursor_ok _ s h,
    fun off => go_to_image_cursor_ok _ s h,
    delete_image_cursor_ok s h,
    shuffle_images_cursor_ok s h⟩
  intro walk dir
  by_cases hdir : dir = []
  · constructor
    · simpa [open_folder, hdir] using h
    · simp [open_folder, hdir]
  · rw [open_folder_closed walk dir s hdir]
    exact ⟨fun hne => absurd rfl hne, rfl⟩

/-- Witness for C2's amended theorem at a concrete loaded state. -/
theorem collection_ops_preserve_cursor_ok_witness :
    cursor_ok (set_index 5 c5state).2 ∧
    (open_folder c4walk demoDir c5state).2.index = c5state.index ∧
    cursor_ok (delete_image c5state).2 :=
  ⟨(collection_ops_preserve_cursor_ok c5state (by intro hne; decide)).2.1 5,
   ((collection_ops_preserve_cursor_ok c5state (by intro hne; decide)).1 c4walk demoDir).2,
   (collection_ops_preserve_cursor_ok c5state (by intro hne; decide)).2.2.2.2.2.2.1⟩

/-! ## C3: delete on a singleton collection crashes -/

/-- C3 (the code at the claim's input): deleting the only entry of a
one-image collection relocates the files and empties the sequence, but then
set_index computes index % 0 and raises ZeroDivisionError instead of reaching
the Empty state without error. -/
theorem delete_singleton_raises :
    (delete_image c3state).1 = some PyErr.zeroDivisionError ∧
    (delete_image c3state).2.images = [] ∧
    (delete_image c3state).2.fs (demoDir ++ ["_deleted".toList, "a.txt".toList]) =
      some ("cap".toList) := by
  refine ⟨by decide, by decide, by decide⟩

/-! ## C10: delete_image does not flush the caption buffer -/

lemma pyBind_set_update_fs (i : Int) (s : ViewState) :
    ((pyBind (set_index i s) update_ui).2).fs = s.fs := by
  unfold set_index
  split
  · rfl
  · exact (update_ui_frame _).2.2

lemma delete_image_closed (s : ViewState) (img : CaptionedImage) (v : Str)
    (hlen : ¬ s.images.length = 0)
    (himg : s.images[s.index]? = some img) (hv : s.fs img.path = some v) :
    delete_image s = pyBind (set_index (s.index : Int)
      { s with fs := relocated_fs s img, images := s.images.eraseIdx s.index })
      update_ui := by
  unfold delete_image
  rw [if_neg hlen]
  simp only [himg, hv]
  rfl

lemma delete_image_fs (s : ViewState) (img : CaptionedImage) (v : Str)
    (hlen : ¬ s.images.length = 0)
    (himg : s.images[s.index]? = some img) (hv : s.fs img.path = some v) :
    ((delete_image s).2).fs = relocated_fs s img := by
  rw [delete_image_closed s img v hlen himg hv]
  exact pyBind_set_update_fs _ _

/-- C10: delete_image never writes the caption buffer: its filesystem effect
is exactly the relocation of the current entry's files, so the sidecar that
lands in _deleted holds the caption as it was on disk before the delete
(i.e. as of the last flush performed by go_to_image), the original sidecar
location is vacated, and the effect is independent of the buffer — any
unsaved edits are discarded without being written anywhere. -/
theorem delete_image_does_not_flush (s : ViewState) (img : CaptionedImage) (c : Str)
    (himg : s.images[s.index]? = some img)
    (hfile : (s.fs img.path).isSome = true)
    (hcap : s.fs (caption_path img) = some c)
    (h1 : caption_path img ≠ img.path)
    (h2 : caption_path img ≠ s.base_path ++ ["_deleted".toList, pathName img.path])
    (h3 : caption_path img ≠ s.base_path ++ ["_deleted".toList, pathName (caption_path img)]) :
    ((delete_image s).2).fs
        (s.base_path ++ ["_deleted".toList, pathName (caption_path img)]) = some c ∧
    ((delete_image s).2).fs (caption_path img) = none ∧
    (∀ b, ((delete_image { s with buffer := b }).2).fs = ((delete_image s).2).fs) := by
  obtain ⟨v, hv⟩ := Option.isSome_iff_exists.mp hfile
  have hlen : ¬ s.images.length = 0 := by
    obtain ⟨hlt, -⟩ := List.getElem?_eq_some.mp himg
    omega
  have hfs := delete_image_fs s img v hlen himg hv
  have hap1 : s.base_path ++ ["_deleted".toList] ++ [pathName img.path] =
      s.base_path ++ ["_deleted".toList, pathName img.path] := by simp
  have hap2 : s.base_path ++ ["_deleted".toList] ++ [pathName (caption_path img)] =
      s.base_path ++ ["_deleted".toList, pathName (caption_path img)] := by simp
  have hfs1cp :
      (fsRename s.fs img.path (s.base_path ++ ["_deleted".toList, pathName img.path]))
        (caption_path img) = some c := by
    simp only [fsRename]
    rw [if_neg h2, if_neg h1, hcap]
  have hrel : relocated_fs s img =
      fsRename (fsRename s.fs img.path (s.base_path ++ ["_deleted".toList, pathName img.path]))
        (caption_path img)
        (s.base_path ++ ["_deleted".toList, pathName (caption_path img)]) := by
    unfold relocated_fs
    simp only [hap1, hap2, hfs1cp, Option.isSome_some, if_true]
  refine ⟨?_, ?_, ?_⟩
  · rw [hfs, hrel]
    simp only [fsRename, if_true]
    rw [if_neg h2, if_neg h1]
    exact hcap
  · rw [hfs, hrel]
    simp only [fsRename, if_true]
    rw [if_neg h3]
  · intro b
    have hfs' := delete_image_fs { s with buffer := b } img v hlen himg hv
    rw [hfs', hfs]
    rfl

/-- Witness for C10: deleting the first demo entry while the buffer holds
unsaved text "EDITED" moves the on-disk caption "red fox" into _deleted —
the edits are not written. -/
theorem delete_image_does_not_flush_witness :
    ((delete_image c10state).2).fs
        (c10state.base_path ++ ["_deleted".toList,
          pathName (caption_path (CaptionedImage.ofPath (demoDir ++ ["a.jpg".toList])))]) =
      some ("red fox".toList) ∧
    ((delete_image c10state).2).fs
        (caption_path (CaptionedImage.ofPath (demoDir ++ ["a.jpg".toList]))) = none := by
  have h := delete_image_does_not_flush c10state
    (CaptionedImage.ofPath (demoDir ++ ["a.jpg".toList])) ("red fox".toList)
    (by decide) (by decide) (by decide) (by decide) (by decide) (by decide)
  exact ⟨h.1, h.2.1⟩

/-! ## C5: find_next scan order -/

lemma scan_range_false (st sp : Nat) : scan_range st sp false = List.range' st (sp - st) := by
  simp [scan_range]

lemma fni_forward_eq (st sp : Nat) (s : ViewState) (h : st < sp) :
    find_next_internal st sp false true s =
      match (List.range' st (sp - st)).find? (matches_at s) with
      | some i => go_to_image (i : Int) s
      | none => find_next_nowrap 0 st false s := by
  unfold find_next_internal
  rw [if_neg (by omega), scan_range_false]
  cases (List.range' st (sp - st)).find? (matches_at s) <;> rfl

lemma fni_nowrap_eq (st sp : Nat) (s : ViewState) (h : st < sp) :
    find_next_nowrap st sp false s =
      match (List.range' st (sp - st)).find? (matches_at s) with
      | some i => go_to_image (i : Int) s
      | none => (none, s) := by
  unfold find_next_nowrap
  rw [if_neg (by omega), scan_range_false]

lemma fni_degenerate (s : ViewState) :
    find_next_nowrap 0 0 false s = (some PyErr.valueError, s) := by
  unfold find_next_nowrap
  rw [if_pos (le_refl 0)]

/-- C5: for every non-empty collection and non-empty query, find_next visits
exactly the indices cursor+1 .. length-1 then 0 .. cursor, in that order:
whenever the first match in that claimed order is index i, find_next is
exactly go_to_image(i), and when no caption matches, the state (hence the
cursor) is left unchanged.  Concretely, on captions ["red fox", "blue sky",
"red fox jumps"] starting at cursor 0, successive find_next("red") calls
land on 2, 0, 2, and find_next("zzz") leaves the cursor at 2. -/
theorem find_next_scan_order (s : ViewState) (h1 : s.images ≠ [])
    (h2 : s.search_text ≠ []) (h3 : s.index < s.images.length) :
    ((∀ i, (claimed_scan s).find? (matches_at s) = some i →
        find_next s = go_to_image (i : Int) s) ∧
     ((claimed_scan s).find? (matches_at s) = none → (find_next s).2 = s)) ∧
    (c5state1.index = 2 ∧ c5state2.index = 0 ∧ c5state3.index = 2 ∧
     (find_next c5stateZ).2.index = c5stateZ.index) := by
  refine ⟨?_, by decide, by decide, by decide, by decide⟩
  have hL0 : ¬ s.images.length = 0 := by simpa [List.length_eq_zero] using h1
  have hq0 : ¬ s.search_text.length = 0 := by simpa [List.length_eq_zero] using h2
  have hfind : find_next s =
      find_next_internal ((s.index + 1) % s.images.length) s.images.length false true s := by
    unfold find_next
    rw [if_neg hL0, if_neg hq0]
  by_cases hlast : s.index + 1 < s.images.length
  · have hstart : (s.index + 1) % s.images.length = s.index + 1 := Nat.mod_eq_of_lt hlast
    have hsplit : claimed_scan s =
        List.range' (s.index + 1) (s.images.length - (s.index + 1)) ++
          List.range' 0 (s.index + 1) := by
      unfold claimed_scan
      congr 2
      omega
    rw [hfind, hstart, fni_forward_eq _ _ s hlast]
    cases hA : (List.range' (s.index + 1) (s.images.length - (s.index + 1))).find?
        (matches_at s) with
    | some j =>
      constructor
      · intro i hi
        rw [hsplit, List.find?_append, hA, Option.or_some] at hi
        cases hi
        rfl
      · intro hnone
        rw [hsplit, List.find?_append, hA, Option.or_some] at hnone
        cases hnone
    | none =>
      rw [fni_nowrap_eq 0 (s.index + 1) s (by omega)]
      simp only [Nat.sub_zero]
      cases hB : (List.range' 0 (s.index + 1)).find? (matches_at s) with
      | some j =>
        constructor
        · intro i hi
          rw [hsplit, List.find?_append, hA, Option.none_or, hB] at hi
          cases hi
          rfl
        · intro hnone
          rw [hsplit, List.find?_append, hA, Option.none_or, hB] at hnone
          cases hnone
      | none =>
        constructor
        · intro i hi
          rw [hsplit, List.find?_append, hA, Option.none_or, hB] at hi
          cases hi
        · intro _
          rfl
  · have hlasteq : s.index + 1 = s.images.length := by omega
    have hstart : (s.index + 1) % s.images.length = 0 := by
      rw [hlasteq]
      exact Nat.mod_self _
    have hsplit : claimed_scan s = List.range' 0 s.images.length := by
      unfold claimed_scan
      have hz : s.images.length - 1 - s.index = 0 := by omega
      rw [hz, List.range'_zero, List.nil_append, hlasteq]
    rw [hfind, hstart, fni_forward_eq 0 s.images.length s (by omega)]
    simp only [Nat.sub_zero]
    cases hA : (List.range' 0 s.images.length).find? (matches_at s) with
    | some j =>
      constructor
      · intro i hi
        rw [hsplit, hA] at hi
        cases hi
        rfl
      · intro hnone
        rw [hsplit, hA] at hnone
        cases hnone
    | none =>
      rw [fni_degenerate]
      constructor
      · intro i hi
        rw [hsplit, hA] at hi
        cases hi
      · intro _
        rfl

/-- Witness for C5: at the concrete scenario state the first match in the
claimed order is index 2, and find_next is exactly go_to_image(2). -/
theorem find_next_scan_order_witness :
    find_next c5state = go_to_image (2 : Int) c5state :=
  ((find_next_scan_order c5state (by decide) (by decide) (by decide)).1).1 2 (by decide)

/-! ## C6: an unmatched query makes the search raise, not return -/

/-- C6 (the code at the claim's input): with captions ["a", "b"] and the
query "zzz" contained in no caption, find_next from the last index reaches
the wrap call with start = end = 0 and raises ValueError, and find_prev from
index 1 computes an empty primary range and raises ValueError immediately:
the start >= end condition is a crash, not a "no candidates" return (the
cursor itself is left in place when the exception propagates). -/
theorem find_unmatched_query_raises :
    (find_next c6state).1 = some PyErr.valueError ∧
    (find_prev c6state).1 = some PyErr.valueError ∧
    (find_next c6state).2.index = 1 ∧
    (find_prev c6state).2.index = 1 := by
  exact ⟨by decide, by decide, by decide, by decide⟩

/-! ## C7: find_prev scans the wrong range and can raise -/

/-- C7 (the code at the claim's input): with captions ["a", "b"], cursor 1
and query "a", the claim says find_prev scans cursor-1 .. 0 and navigates to
index 0, whose caption matches; the code computes the primary range end as
(cursor + length - 1) mod length = 0, so start >= end holds and it raises
ValueError without scanning anything, leaving the cursor at 1. -/
theorem find_prev_wrong_range_raises :
    matches_at c7state 0 = true ∧
    (find_prev c7state).1 = some PyErr.valueError ∧
    (find_prev c7state).2.index = 1 := by
  exact ⟨by decide, by decide, by decide⟩

end ImageCaptionGui
